import Mathlib

/-!
# Verification of the TTS streaming audio pipeline

Shallow embedding of the core of the `TTS-STT` repository:

* `src/speaker.py` — the `Speaker` playback engine: a FIFO queue of byte
  fragments, a background `_play` loop that accumulates fragments in a byte
  buffer, slices the buffer into fixed-size frames (`Config.CHUNK = 4096`
  bytes), writes each frame to the PyAudio output stream, and flushes any
  leftover partial frame to the stream on a dequeue timeout.
* `src/tts_client.py` — the `TTSClient`: control-message sending
  (`speak`/`flush`/`close`) and the background `_receiver` loop that
  demultiplexes inbound websocket messages (text vs binary), forwards
  binary fragments to the speaker, records them in `audio_data`, and on
  loop exit runs the `finally` block: stop the speaker and export the
  recording via `save_to_wav` (`src/audio_utils.py`).

Bytes are modelled as `List Nat`; a fragment is a `List Nat`; the write
stream of the output sink is the list of writes issued, in order, each
write being one `List Nat`.
-/

namespace TTS

/-- `Config.CHUNK` from `src/config.py`: bytes per device write (the frame
size handed to `pyaudio`). -/
def Config.CHUNK : Nat := 4096

/-- Fuelled version of the inner `while len(self._buffer) >= self._chunk`
loop of `Speaker._play` (src/speaker.py lines 54-57): greedily slice the
buffer into frames of exactly `chunk` bytes, returning the frames in write
order together with the leftover partial frame.  Each iteration of the
Python loop removes `chunk ≥ 1` bytes from the buffer, so the loop runs at
most `buf.length` times; the fuel argument makes that termination bound
explicit while keeping the definition structurally recursive (hence
kernel-computable).  `slice` below instantiates the fuel with
`buf.length`, which `sliceGo_congr` shows is always enough. -/
def sliceGo (fuel chunk : Nat) (buf : List Nat) : List (List Nat) × List Nat :=
  match fuel with
  | 0 => ([], buf)
  | fuel + 1 =>
    if chunk ≠ 0 ∧ chunk ≤ buf.length then
      let p := sliceGo fuel chunk (buf.drop chunk)
      (buf.take chunk :: p.1, p.2)
    else ([], buf)

/-- The inner frame-slicing loop of `Speaker._play`: repeatedly peel off
`buf[:chunk]` while `len(buf) >= chunk` (src/speaker.py lines 54-57).
Defined for a positive frame size; the Python loop does not terminate for
`chunk = 0` (the repository always uses `Config.CHUNK = 4096`). -/
def slice (chunk : Nat) (buf : List Nat) : List (List Nat) × List Nat :=
  sliceGo buf.length chunk buf

/-- State of the playback loop: the accumulation buffer `self._buffer` and
the sequence of writes issued to the output stream so far, in write
order. -/
structure PlayState where
  buffer : List Nat
  writes : List (List Nat)
  deriving Repr, DecidableEq

/-- The two outcomes of `self._queue.get(timeout=Config.TIMEOUT)` in one
iteration of the `Speaker._play` loop: a fragment was dequeued, or the
wait timed out (`queue.Empty`). -/
inductive PlayEvent where
  | frag (data : List Nat)
  | timeout
  deriving Repr, DecidableEq

/-- The body of one `Speaker._play` loop iteration (src/speaker.py lines
51-62): on a dequeued fragment, append it to the buffer and write out
every full frame; on `queue.Empty`, flush the buffer to the stream if it
is non-empty. -/
def playStep (chunk : Nat) (s : PlayState) : PlayEvent → PlayState
  | .frag data =>
      let p := slice chunk (s.buffer ++ data)
      { buffer := p.2, writes := s.writes ++ p.1 }
  | .timeout =>
      if s.buffer = [] then s
      else { buffer := [], writes := s.writes ++ [s.buffer] }

/-- Run the `Speaker._play` loop over a finite sequence of iteration
events, starting from the initial state (`self._buffer = b''`, no writes
issued yet). -/
def playRun (chunk : Nat) (events : List PlayEvent) : PlayState :=
  events.foldl (playStep chunk) { buffer := [], writes := [] }

/-- The fragment sizes of the spec's scenario (spec section 8): fragments
of 10, 5000 and 3 bytes.  The byte values are irrelevant to the scenario;
distinct fill values keep the fragments distinguishable. -/
def scenarioFragments : List (List Nat) :=
  [List.replicate 10 1, List.replicate 5000 2, List.replicate 3 3]

/-- The playback state after the `Speaker._play` loop fully processes the
scenario fragments with frame size `Config.CHUNK = 4096` and then hits one
idle timeout. -/
def scenarioRun : PlayState :=
  playRun Config.CHUNK (scenarioFragments.map PlayEvent.frag ++ [PlayEvent.timeout])

/-- One inbound item observed by `TTSClient._receiver` (src/tts_client.py
lines 19-35): `self._socket.recv()` returns a text message, a binary
fragment, `None`, or some other non-str non-bytes object, or it raises
(connection drop, socket closed by `close()`), modelled as `fail`. -/
inductive Inbound where
  | text (s : String)
  | bin (b : List Nat)
  | null
  | other
  | fail
  deriving Repr, DecidableEq

/-- Mutable state accumulated by the receive loop: the fragments forwarded
to `self._speaker.play` and the fragments appended to `audio_data`, both
in arrival order. -/
structure RecvState where
  played : List (List Nat)
  log : List (List Nat)
  deriving Repr, DecidableEq

/-- How the `while not self._exit.is_set()` loop of `TTSClient._receiver`
ended: the exit flag was observed set, the connection produced no further
messages, or `recv` (or a handler) raised an exception caught by the
`except` clause. -/
inductive LoopExit where
  | flagSet
  | connEnded
  | excRaised
  deriving Repr, DecidableEq

/-- The `while not self._exit.is_set()` loop of `TTSClient._receiver`
(src/tts_client.py lines 22-30).  `exitFlag i` models the value
`self._exit.is_set()` observed at the start of iteration `i` (the flag is
set asynchronously by `close()`).  `None` is skipped by the
`if message is None: continue` guard; a message that is neither `str` nor
`bytes` (`other`) falls through both `isinstance` checks; a `str` is only
printed; a `bytes` fragment is forwarded to the speaker and appended to
`audio_data`. -/
def recvLoop (exitFlag : Nat → Bool) :
    List Inbound → Nat → RecvState → RecvState × LoopExit
  | msgs, i, s =>
    if exitFlag i then (s, .flagSet)
    else
      match msgs with
      | [] => (s, .connEnded)
      | .fail :: _ => (s, .excRaised)
      | .text _ :: ms => recvLoop exitFlag ms (i + 1) s
      | .null :: ms => recvLoop exitFlag ms (i + 1) s
      | .other :: ms => recvLoop exitFlag ms (i + 1) s
      | .bin b :: ms =>
          recvLoop exitFlag ms (i + 1) { played := s.played ++ [b], log := s.log ++ [b] }

/-- `save_to_wav` from `src/audio_utils.py` (lines 16-23): the PCM bytes
written into the container file are `b''.join(audio_data)`.  (Container
header fields — channels, sample width, rate — are fixed configuration and
carry no audio data.) -/
def save_to_wav (audio_data : List (List Nat)) : List Nat :=
  audio_data.flatten

/-- Observable outcome of one `TTSClient._receiver` session: what was
forwarded to the speaker, the recorded log, how many times
`self._speaker.stop()` and `save_to_wav` ran, and the PCM bytes exported. -/
structure SessionResult where
  played : List (List Nat)
  log : List (List Nat)
  stopCalls : Nat
  exportCalls : Nat
  exportedBytes : List Nat
  deriving Repr, DecidableEq

/-- The `finally` block of `TTSClient._receiver` (src/tts_client.py lines
33-35): one call to `self._speaker.stop()` followed by one call to
`save_to_wav(audio_data)`. -/
def finalizeSession (s : RecvState) : SessionResult :=
  { played := s.played, log := s.log, stopCalls := 1, exportCalls := 1,
    exportedBytes := save_to_wav s.log }

/-- A whole `TTSClient._receiver` run: the `try` body (the receive loop)
followed by the `except`/`finally` structure.  When the loop ended by
exception the `except` clause logs and falls through to `finally`; on
normal exit control reaches `finally` directly.  Either way the `finally`
block runs exactly once, which the `match` with identical branches makes
explicit. -/
def receiverSession (exitFlag : Nat → Bool) (msgs : List Inbound) : SessionResult :=
  match recvLoop exitFlag msgs 0 { played := [], log := [] } with
  | (s, .excRaised) => finalizeSession s
  | (s, .flagSet) => finalizeSession s
  | (s, .connEnded) => finalizeSession s

/-- The observable steps of `Speaker.stop` (src/speaker.py lines 36-45), in
program order. -/
inductive StopAction where
  | setExitFlag
  | stopSink
  | closeSink
  | joinThread
  | resetQueue
  deriving Repr, DecidableEq

/-- The fields of a `Speaker` instance that `stop()` reads or writes:
`self._exit`, whether `self._stream` is non-`None`, whether `self._thread`
is non-`None`, and the contents of `self._queue`. -/
structure SpeakerState where
  exitFlag : Bool
  hasStream : Bool
  hasThread : Bool
  queue : List (List Nat)
  deriving Repr, DecidableEq

/-- `Speaker.stop` (src/speaker.py lines 36-45): set the exit flag; if the
stream is non-`None`, stop it, close it and null it; if the thread is
non-`None`, join it and null it; replace the queue with a fresh empty one.
Returns the resulting state and the actions performed, in order. -/
def Speaker.stopRun (s : SpeakerState) : SpeakerState × List StopAction :=
  let acts := [StopAction.setExitFlag]
    ++ (if s.hasStream then [StopAction.stopSink, StopAction.closeSink] else [])
    ++ (if s.hasThread then [StopAction.joinThread] else [])
    ++ [StopAction.resetQueue]
  ({ exitFlag := true, hasStream := false, hasThread := false, queue := [] }, acts)

/-- The observable steps of `TTSClient.close` (src/tts_client.py lines
43-47), in program order. -/
inductive CloseAction where
  | setExitFlag
  | sendCloseMsg
  | closeSocket
  | joinReceiver
  deriving Repr, DecidableEq

/-- `TTSClient.close` (src/tts_client.py lines 43-47): set the exit flag,
send the `Close` control message, close the websocket, join the receiver
thread — in that order. -/
def TTSClient.closeRun : List CloseAction :=
  [CloseAction.setExitFlag, CloseAction.sendCloseMsg,
   CloseAction.closeSocket, CloseAction.joinReceiver]

/-- Joint state of the playback-loop thread and a caller thread running
`Speaker.stop`, for exploring their interleavings.  `loopPC`: 0 = the loop
is about to test `self._exit.is_set()`; 1 = the test was passed and the
loop is about to dequeue; 2 = the loop has exited (the thread function
returned).  `stopPC`: 0..4 = about to run the setExitFlag / stopSink /
closeSink / joinThread / resetQueue step of `stop()`; 5 = `stop()` has
returned.  `badTouch` records that the loop attempted a write to the sink
while the sink was closed (in the source such a write raises and is
swallowed by the `except Exception` handler at src/speaker.py line 63). -/
structure Sys where
  exitFlag : Bool
  sinkOpen : Bool
  queue : List (List Nat)
  buffer : List Nat
  loopPC : Nat
  stopPC : Nat
  badTouch : Bool
  deriving Repr, DecidableEq

/-- One step of the playback-loop thread in the interleaving model.  At
`loopPC = 0` the loop tests the exit flag; at `loopPC = 1` it dequeues: a
pending fragment is appended to the buffer and every full frame is written
out, a timeout flushes a non-empty buffer.  A write attempted while
`sinkOpen = false` sets `badTouch`.  (After a failed write the source
swallows the exception and continues; the model treats the whole iteration
as one step, which is enough to observe the attempted touch.) -/
def loopStep (chunk : Nat) (s : Sys) : Sys :=
  if s.loopPC = 0 then
    if s.exitFlag then { s with loopPC := 2 } else { s with loopPC := 1 }
  else if s.loopPC = 1 then
    match s.queue with
    | d :: rest =>
        let p := slice chunk (s.buffer ++ d)
        { s with queue := rest, buffer := p.2, loopPC := 0,
                 badTouch := s.badTouch || (!p.1.isEmpty && !s.sinkOpen) }
    | [] =>
        if s.buffer = [] then { s with loopPC := 0 }
        else { s with buffer := [], loopPC := 0,
                      badTouch := s.badTouch || !s.sinkOpen }
  else s

/-- One step of the caller thread running `Speaker.stop` in the
interleaving model, following the statement order of src/speaker.py lines
37-45.  The `joinThread` step (stopPC = 3) blocks — is a no-op — until the
loop thread has exited (`loopPC = 2`). -/
def stopStep (s : Sys) : Sys :=
  if s.stopPC = 0 then { s with exitFlag := true, stopPC := 1 }
  else if s.stopPC = 1 then { s with stopPC := 2 }
  else if s.stopPC = 2 then { s with sinkOpen := false, stopPC := 3 }
  else if s.stopPC = 3 then
    (if s.loopPC = 2 then { s with stopPC := 4 } else s)
  else if s.stopPC = 4 then { s with queue := [], stopPC := 5 }
  else s

/-- Interleaved execution: `true` schedules the playback-loop thread,
`false` schedules the caller thread running `stop()`. -/
def sysStep (chunk : Nat) (s : Sys) (who : Bool) : Sys :=
  if who then loopStep chunk s else stopStep s

/-- Run a schedule of thread steps. -/
def sysRun (chunk : Nat) (sched : List Bool) (s : Sys) : Sys :=
  sched.foldl (sysStep chunk) s

/-- Initial joint state: playback running (sink open, loop at its flag
test), `stop()` about to begin, queue contents `q`. -/
def sysInit (q : List (List Nat)) : Sys :=
  { exitFlag := false, sinkOpen := true, queue := q, buffer := [],
    loopPC := 0, stopPC := 0, badTouch := false }

/-- A Python value handed to `json.dumps` as the `"text"` field of a
control message: either a `str`, or some object of a non-JSON-serializable
type (for which CPython's `json.dumps` raises `TypeError`). -/
inductive PyVal where
  | str (s : String)
  | obj (typeName : String)
  deriving Repr, DecidableEq

/-- Lower-case hexadecimal digit, as produced by CPython's `\uXXXX`
escapes. -/
def hexDigitChar (n : Nat) : Char :=
  if n < 10 then Char.ofNat (48 + n) else Char.ofNat (87 + n)

/-- A `\uXXXX` escape for a 16-bit code unit. -/
def uEscape (n : Nat) : String :=
  String.mk ['\\', 'u', hexDigitChar (n / 4096 % 16), hexDigitChar (n / 256 % 16),
             hexDigitChar (n / 16 % 16), hexDigitChar (n % 16)]

/-- CPython `json.dumps` escaping of one character with the default
`ensure_ascii=True`: `"` and `\` are backslash-escaped; control characters
08/09/0a/0c/0d get their short escapes; every other character outside
printable ASCII `0x20`-`0x7e` becomes `\uXXXX` (a surrogate pair for
astral code points). -/
def escapeChar (c : Char) : String :=
  if c = '"' then "\\\""
  else if c = '\\' then "\\\\"
  else if c.toNat = 8 then "\\b"
  else if c.toNat = 9 then "\\t"
  else if c.toNat = 10 then "\\n"
  else if c.toNat = 12 then "\\f"
  else if c.toNat = 13 then "\\r"
  else if 32 ≤ c.toNat ∧ c.toNat ≤ 126 then String.singleton c
  else if c.toNat < 65536 then uEscape c.toNat
  else uEscape (55296 + (c.toNat - 65536) / 1024)
         ++ uEscape (56320 + (c.toNat - 65536) % 1024)

/-- CPython `json.dumps` serialization of a `str`. -/
def pyJsonStr (s : String) : String :=
  "\"" ++ String.join (s.toList.map escapeChar) ++ "\""

/-- `json.dumps` on a value appearing inside a control message: a `str`
serializes to its JSON string form; a non-serializable object raises
`TypeError` (modelled as `Except.error` carrying CPython's message). -/
def dumpsVal : PyVal → Except String String
  | .str s => .ok (pyJsonStr s)
  | .obj t => .error ("Object of type " ++ t ++ " is not JSON serializable")

/-- `json.dumps({"type": "Speak", "text": text})` with CPython's default
separators (`", "` and `": "`) and insertion-ordered keys.  Fails exactly
when serializing `text` fails. -/
def dumpsSpeak (text : PyVal) : Except String String :=
  match dumpsVal text with
  | .error e => .error e
  | .ok v => .ok ("\x7b\"type\": \"Speak\", \"text\": " ++ v ++ "\x7d")

/-- `json.dumps({"type": "Flush"})`. -/
def dumpsFlush : Except String String :=
  .ok "\x7b\"type\": \"Flush\"\x7d"

/-- `TTSClient.speak` (src/tts_client.py lines 37-38):
`self._socket.send(json.dumps({"type": "Speak", "text": text}))`.  The
connection is modelled as the list of frames sent so far; `json.dumps` is
evaluated first, and if it raises, the exception propagates to the caller
and nothing is sent. -/
def TTSClient.speak (sent : List String) (text : PyVal) : Except String (List String) :=
  match dumpsSpeak text with
  | .error e => .error e
  | .ok msg => .ok (sent ++ [msg])

/-- `TTSClient.flush` (src/tts_client.py lines 40-41):
`self._socket.send(json.dumps({"type": "Flush"}))`. -/
def TTSClient.flush (sent : List String) : Except String (List String) :=
  match dumpsFlush with
  | .error e => .error e
  | .ok msg => .ok (sent ++ [msg])

end TTS

namespace TTS

/-! ## Properties of the frame-slicing loop -/

/-- The result of `sliceGo` does not depend on the fuel once the fuel
covers the buffer length. -/
theorem sliceGo_congr (chunk : Nat) :
    ∀ f₁ : Nat, ∀ f₂ : Nat, ∀ buf : List Nat, buf.length ≤ f₁ → buf.length ≤ f₂ →
      sliceGo f₁ chunk buf = sliceGo f₂ chunk buf := by
  intro f₁
  induction f₁ with
  | zero =>
      intro f₂ buf h1 _
      have hb : buf = [] := List.eq_nil_of_length_eq_zero (Nat.le_zero.mp h1)
      subst hb
      cases f₂ with
      | zero => rfl
      | succ m => simp [sliceGo]
  | succ n ih =>
      intro f₂ buf h1 h2
      cases f₂ with
      | zero =>
          have hb : buf = [] := List.eq_nil_of_length_eq_zero (Nat.le_zero.mp h2)
          subst hb
          simp [sliceGo]
      | succ m =>
          by_cases hcond : chunk ≠ 0 ∧ chunk ≤ buf.length
          · have hdrop : (buf.drop chunk).length ≤ n := by
              simp only [List.length_drop]
              omega
            have hdrop2 : (buf.drop chunk).length ≤ m := by
              simp only [List.length_drop]
              omega
            simp only [sliceGo, if_pos hcond]
            rw [ih m _ hdrop hdrop2]
          · simp [sliceGo, if_neg hcond]

/-- The unfolding equation of `slice`, mirroring one test of the source's
`while len(self._buffer) >= self._chunk` condition. -/
theorem slice_eq (chunk : Nat) (buf : List Nat) :
    slice chunk buf =
      if chunk ≠ 0 ∧ chunk ≤ buf.length then
        (buf.take chunk :: (slice chunk (buf.drop chunk)).1,
         (slice chunk (buf.drop chunk)).2)
      else ([], buf) := by
  by_cases hcond : chunk ≠ 0 ∧ chunk ≤ buf.length
  · have hpos : 0 < buf.length := Nat.lt_of_lt_of_le (Nat.pos_of_ne_zero hcond.1) hcond.2
    obtain ⟨m, hm⟩ : ∃ m, buf.length = m + 1 := ⟨buf.length - 1, by omega⟩
    have hdrop : (buf.drop chunk).length ≤ m := by
      simp only [List.length_drop]
      omega
    simp only [slice, hm, sliceGo, if_pos hcond, if_pos]
    rw [sliceGo_congr chunk m (buf.drop chunk).length _ hdrop (Nat.le_refl _)]
  · rw [if_neg hcond]
    cases hn : buf.length with
    | zero => simp [slice, hn, sliceGo]
    | succ m =>
        simp only [slice, hn, sliceGo]
        rw [if_neg (hn ▸ hcond)]

/-- Slicing loses no bytes: the frames written concatenated with the
leftover reconstitute the buffer. -/
theorem slice_flatten (chunk : Nat) (buf : List Nat) :
    (slice chunk buf).1.flatten ++ (slice chunk buf).2 = buf := by
  suffices h : ∀ fuel buf2,
      (sliceGo fuel chunk buf2).1.flatten ++ (sliceGo fuel chunk buf2).2 = buf2 from
    h buf.length buf
  intro fuel
  induction fuel with
  | zero => intro buf2; simp [sliceGo]
  | succ n ih =>
      intro buf2
      by_cases hcond : chunk ≠ 0 ∧ chunk ≤ buf2.length
      · simp only [sliceGo, if_pos hcond, List.flatten_cons, List.append_assoc, ih]
        exact List.take_append_drop chunk buf2
      · simp [sliceGo, if_neg hcond]

/-- Every frame produced by the slicing loop has exactly `chunk` bytes. -/
theorem slice_frames_length (chunk : Nat) (buf : List Nat) :
    ∀ f ∈ (slice chunk buf).1, f.length = chunk := by
  suffices h : ∀ fuel buf2, ∀ f ∈ (sliceGo fuel chunk buf2).1, f.length = chunk from
    h buf.length buf
  intro fuel
  induction fuel with
  | zero => intro buf2; simp [sliceGo]
  | succ n ih =>
      intro buf2 f hf
      by_cases hcond : chunk ≠ 0 ∧ chunk ≤ buf2.length
      · simp only [sliceGo, if_pos hcond, List.mem_cons] at hf
        rcases hf with hf | hf
        · subst hf; exact List.length_take_of_le hcond.2
        · exact ih _ f hf
      · simp [sliceGo, if_neg hcond] at hf

/-- After the slicing loop the buffer holds strictly less than one frame. -/
theorem slice_leftover_lt (chunk : Nat) (hc : chunk ≠ 0) (buf : List Nat) :
    (slice chunk buf).2.length < chunk := by
  suffices h : ∀ fuel buf2, buf2.length ≤ fuel →
      (sliceGo fuel chunk buf2).2.length < chunk from
    h buf.length buf (Nat.le_refl _)
  intro fuel
  induction fuel with
  | zero =>
      intro buf2 hle
      have hb : buf2 = [] := List.eq_nil_of_length_eq_zero (Nat.le_zero.mp hle)
      subst hb
      simp [sliceGo]
      omega
  | succ n ih =>
      intro buf2 hle
      by_cases hcond : chunk ≠ 0 ∧ chunk ≤ buf2.length
      · simp only [sliceGo, if_pos hcond]
        exact ih _ (by simp only [List.length_drop]; omega)
      · simp only [sliceGo, if_neg hcond]
        push_neg at hcond
        have := hcond hc
        omega

/-- The slicing loop produces `⌊buf.length / chunk⌋` full frames. -/
theorem slice_num_frames (chunk : Nat) (buf : List Nat) :
    (slice chunk buf).1.length = buf.length / chunk := by
  suffices h : ∀ fuel buf2, buf2.length ≤ fuel →
      (sliceGo fuel chunk buf2).1.length = buf2.length / chunk from
    h buf.length buf (Nat.le_refl _)
  intro fuel
  induction fuel with
  | zero =>
      intro buf2 hle
      have hb : buf2 = [] := List.eq_nil_of_length_eq_zero (Nat.le_zero.mp hle)
      subst hb
      simp [sliceGo]
  | succ n ih =>
      intro buf2 hle
      by_cases hcond : chunk ≠ 0 ∧ chunk ≤ buf2.length
      · simp only [sliceGo, if_pos hcond, List.length_cons]
        rw [ih _ (by simp only [List.length_drop]; omega)]
        simp only [List.length_drop]
        rw [Nat.div_eq_sub_div (Nat.pos_of_ne_zero hcond.1) hcond.2]
      · simp only [sliceGo, if_neg hcond, List.length_nil]
        push_neg at hcond
        by_cases hc0 : chunk = 0
        · subst hc0
          simp
        · rw [Nat.div_eq_of_lt (hcond hc0)]

/-- The leftover after slicing has `buf.length % chunk` bytes. -/
theorem slice_leftover_len (chunk : Nat) (hc : chunk ≠ 0) (buf : List Nat) :
    (slice chunk buf).2.length = buf.length % chunk := by
  suffices h : ∀ fuel buf2, buf2.length ≤ fuel →
      (sliceGo fuel chunk buf2).2.length = buf2.length % chunk from
    h buf.length buf (Nat.le_refl _)
  intro fuel
  induction fuel with
  | zero =>
      intro buf2 hle
      have hb : buf2 = [] := List.eq_nil_of_length_eq_zero (Nat.le_zero.mp hle)
      subst hb
      simp [sliceGo]
  | succ n ih =>
      intro buf2 hle
      by_cases hcond : chunk ≠ 0 ∧ chunk ≤ buf2.length
      · simp only [sliceGo, if_pos hcond]
        rw [ih _ (by simp only [List.length_drop]; omega)]
        simp only [List.length_drop]
        rw [Nat.mod_eq_sub_mod hcond.2]
      · simp only [sliceGo, if_neg hcond]
        push_neg at hcond
        rw [Nat.mod_eq_of_lt (hcond hc)]

/-- Slicing a buffer that already starts with a full frame peels exactly
that frame first. -/
theorem slice_frame_cons (chunk : Nat) (hc : chunk ≠ 0) (f x : List Nat)
    (hf : f.length = chunk) :
    slice chunk (f ++ x) = (f :: (slice chunk x).1, (slice chunk x).2) := by
  have hcond : chunk ≠ 0 ∧ chunk ≤ (f ++ x).length := ⟨hc, by simp; omega⟩
  rw [slice_eq, if_pos hcond]
  subst hf
  simp [List.take_left, List.drop_left]

/-- Slicing a buffer that starts with a run of full frames peels exactly
those frames first. -/
theorem slice_flatten_append (chunk : Nat) (hc : chunk ≠ 0) (fs : List (List Nat))
    (x : List Nat) (hfs : ∀ f ∈ fs, f.length = chunk) :
    slice chunk (fs.flatten ++ x) = (fs ++ (slice chunk x).1, (slice chunk x).2) := by
  induction fs with
  | nil => simp
  | cons f fs ih =>
      have hf : f.length = chunk := hfs f (by simp)
      have heq : (f :: fs).flatten ++ x = f ++ (fs.flatten ++ x) := by simp
      rw [heq, slice_frame_cons chunk hc f _ hf,
        ih (fun g hg => hfs g (List.mem_cons_of_mem _ hg))]
      simp

/-- A buffer shorter than one frame is left untouched by the slicing
loop. -/
theorem slice_small (chunk : Nat) (buf : List Nat) (h : buf.length < chunk) :
    slice chunk buf = ([], buf) := by
  rw [slice_eq, if_neg]
  push_neg
  intro
  omega

/-! ## Properties of the playback loop -/

/-- A timeout iteration with a non-empty buffer flushes it as one write. -/
theorem playStep_timeout_flush (chunk : Nat) (b : List Nat) (ws : List (List Nat))
    (h : b ≠ []) :
    playStep chunk { buffer := b, writes := ws } PlayEvent.timeout
      = { buffer := [], writes := ws ++ [b] } := by
  simp [playStep, h]

/-- A timeout iteration with an empty buffer changes nothing. -/
theorem playStep_timeout_noop (chunk : Nat) (ws : List (List Nat)) :
    playStep chunk { buffer := [], writes := ws } PlayEvent.timeout
      = { buffer := [], writes := ws } := by
  simp [playStep]

/-- Processing a run of fragment arrivals from a sub-frame buffer produces
exactly the greedy slicing of the buffer followed by all fragment bytes in
arrival order. -/
theorem playRun_frags (chunk : Nat) (hc : chunk ≠ 0) (ds : List (List Nat)) :
    ∀ s : PlayState, s.buffer.length < chunk →
    (ds.map PlayEvent.frag).foldl (playStep chunk) s =
      { buffer := (slice chunk (s.buffer ++ ds.flatten)).2,
        writes := s.writes ++ (slice chunk (s.buffer ++ ds.flatten)).1 } := by
  induction ds with
  | nil =>
      intro s hs
      simp [slice_small chunk s.buffer hs]
  | cons d ds ih =>
      intro s hs
      simp only [List.map_cons, List.foldl_cons]
      have hb1 : (playStep chunk s (.frag d)).buffer.length < chunk :=
        slice_leftover_lt chunk hc _
      rw [ih _ hb1]
      have hdecomp : (slice chunk (s.buffer ++ d)).1.flatten ++ (slice chunk (s.buffer ++ d)).2
          = s.buffer ++ d := slice_flatten chunk (s.buffer ++ d)
      have hkey : slice chunk (s.buffer ++ (d :: ds).flatten)
          = ((slice chunk (s.buffer ++ d)).1
               ++ (slice chunk ((slice chunk (s.buffer ++ d)).2 ++ ds.flatten)).1,
             (slice chunk ((slice chunk (s.buffer ++ d)).2 ++ ds.flatten)).2) := by
        have h1 : s.buffer ++ (d :: ds).flatten
            = (slice chunk (s.buffer ++ d)).1.flatten
                ++ ((slice chunk (s.buffer ++ d)).2 ++ ds.flatten) := by
          rw [← List.append_assoc, hdecomp]
          simp
        rw [h1, slice_flatten_append chunk hc _ _ (slice_frames_length chunk (s.buffer ++ d))]
      rw [hkey]
      simp [playStep]

/-- Characterization of a full playback run: process all fragments, then
one idle timeout.  The writes are the greedy frame slicing of the
concatenated input, followed by one flush of the leftover when it is
non-empty. -/
theorem playRun_full (chunk : Nat) (hc : chunk ≠ 0) (ds : List (List Nat)) :
    playRun chunk (ds.map PlayEvent.frag ++ [PlayEvent.timeout])
      = if (slice chunk ds.flatten).2 = []
        then { buffer := [], writes := (slice chunk ds.flatten).1 }
        else { buffer := [],
               writes := (slice chunk ds.flatten).1 ++ [(slice chunk ds.flatten).2] } := by
  unfold playRun
  rw [List.foldl_append,
    playRun_frags chunk hc ds { buffer := [], writes := [] }
      (by simpa using Nat.pos_of_ne_zero hc)]
  simp only [List.nil_append]
  have hsingle : ∀ s : PlayState,
      [PlayEvent.timeout].foldl (playStep chunk) s = playStep chunk s PlayEvent.timeout :=
    fun _ => rfl
  rw [hsingle]
  by_cases h : (slice chunk ds.flatten).2 = []
  · rw [if_pos h, h]
    exact playStep_timeout_noop chunk _
  · rw [if_neg h]
    exact playStep_timeout_flush chunk _ _ h

/-- The full playback run writes exactly the concatenation of the input
fragments, in order. -/
theorem playRun_writes_flatten (chunk : Nat) (hc : chunk ≠ 0) (ds : List (List Nat)) :
    (playRun chunk (ds.map PlayEvent.frag ++ [PlayEvent.timeout])).writes.flatten
      = ds.flatten := by
  have hj := slice_flatten chunk ds.flatten
  rw [playRun_full chunk hc ds]
  by_cases h : (slice chunk ds.flatten).2 = []
  · rw [if_pos h]
    rw [h, List.append_nil] at hj
    exact hj
  · rw [if_neg h]
    simp only [List.flatten_append, List.flatten_cons, List.flatten_nil, List.append_nil]
    exact hj

/-- **C1**: for every finite sequence of fragments enqueued via `play()`
and fully processed by the playback loop (all fragments dequeued, then one
idle timeout), the bytes written to the sink, concatenated in write order,
equal the bytes of the enqueued fragments concatenated in arrival order;
every write except the last is exactly one frame of `chunk` bytes, and the
last is a non-empty write of at most `chunk` bytes (a final short frame
when the total is not a frame multiple). -/
theorem playback_stream_equals_input (chunk : Nat) (hc : chunk ≠ 0) (ds : List (List Nat)) :
    (playRun chunk (ds.map PlayEvent.frag ++ [PlayEvent.timeout])).writes.flatten
        = ds.flatten ∧
    (∀ w ∈ (playRun chunk (ds.map PlayEvent.frag ++ [PlayEvent.timeout])).writes.dropLast,
        w.length = chunk) ∧
    (∀ w ∈ (playRun chunk (ds.map PlayEvent.frag ++ [PlayEvent.timeout])).writes,
        w ≠ [] ∧ w.length ≤ chunk) := by
  refine ⟨playRun_writes_flatten chunk hc ds, ?_, ?_⟩ <;>
    rw [playRun_full chunk hc ds] <;>
    by_cases h : (slice chunk ds.flatten).2 = []
  · rw [if_pos h]
    intro w hw
    exact slice_frames_length chunk ds.flatten w (List.dropLast_subset _ hw)
  · rw [if_neg h]
    intro w hw
    rw [List.dropLast_concat] at hw
    exact slice_frames_length chunk ds.flatten w hw
  · rw [if_pos h]
    intro w hw
    have hl := slice_frames_length chunk ds.flatten w hw
    refine ⟨?_, Nat.le_of_eq hl⟩
    intro hnil
    rw [hnil] at hl
    exact hc hl.symm
  · rw [if_neg h]
    intro w hw
    rcases List.mem_append.mp hw with hw | hw
    · have hl := slice_frames_length chunk ds.flatten w hw
      refine ⟨?_, Nat.le_of_eq hl⟩
      intro hnil
      rw [hnil] at hl
      exact hc hl.symm
    · have hw2 : w = (slice chunk ds.flatten).2 := by simpa using hw
      subst hw2
      exact ⟨h, Nat.le_of_lt (slice_leftover_lt chunk hc ds.flatten)⟩

/-- Witness for C1 at a concrete input. -/
theorem playback_stream_equals_input_witness :
    (playRun 2 ([[1, 2, 3]].map PlayEvent.frag ++ [PlayEvent.timeout])).writes.flatten
      = ([[1, 2, 3]] : List (List Nat)).flatten :=
  (playback_stream_equals_input 2 (by decide) [[1, 2, 3]]).1

/-- **C3**: FIFO order.  For fragments enqueued in arrival order, the
write stream restricted to the first `k` fragments' byte span is exactly
those fragments' bytes, and the rest of the stream is exactly the later
fragments' bytes: for any fragments A (among the first `k`) and B (among
the rest), all of A's bytes appear before any of B's bytes, and no
fragment is dropped. -/
theorem playback_fifo (chunk : Nat) (hc : chunk ≠ 0) (ds : List (List Nat)) (k : Nat) :
    ((playRun chunk (ds.map PlayEvent.frag ++ [PlayEvent.timeout])).writes.flatten.take
        (ds.take k).flatten.length = (ds.take k).flatten) ∧
    ((playRun chunk (ds.map PlayEvent.frag ++ [PlayEvent.timeout])).writes.flatten.drop
        (ds.take k).flatten.length = (ds.drop k).flatten) := by
  have hsplit : ds.flatten = (ds.take k).flatten ++ (ds.drop k).flatten := by
    conv_lhs => rw [← List.take_append_drop k ds]
    rw [List.flatten_append]
  rw [playRun_writes_flatten chunk hc ds, hsplit]
  exact ⟨List.take_left _ _, List.drop_left _ _⟩

/-- Witness for C3 at a concrete input. -/
theorem playback_fifo_witness :
    (playRun 2 ([[1], [2]].map PlayEvent.frag ++ [PlayEvent.timeout])).writes.flatten.take
        (([[1], [2]] : List (List Nat)).take 1).flatten.length
      = (([[1], [2]] : List (List Nat)).take 1).flatten :=
  (playback_fifo 2 (by decide) [[1], [2]] 1).1

/-- The spec scenario (fragments of 10, 5000 and 3 bytes, frame size 4096,
then an idle timeout) produces one full 4096-byte write and one short
917-byte write. -/
theorem scenario_write_lengths : scenarioRun.writes.map List.length = [4096, 917] := by
  have hfr := playRun_frags 4096 (by omega) scenarioFragments
    { buffer := [], writes := [] } (by simp)
  have hlen : scenarioFragments.flatten.length = 5013 := by
    simp only [scenarioFragments, List.flatten_cons, List.flatten_nil, List.length_append,
      List.length_replicate, List.append_nil, List.length_nil]
  have hnum : (slice 4096 scenarioFragments.flatten).1.length = 1 := by
    rw [slice_num_frames, hlen]
  have hleft : (slice 4096 scenarioFragments.flatten).2.length = 917 := by
    rw [slice_leftover_len 4096 (by omega), hlen]
  obtain ⟨f, hf⟩ := List.length_eq_one.mp hnum
  have hflen : f.length = 4096 :=
    slice_frames_length 4096 scenarioFragments.flatten f (by rw [hf]; simp)
  have hne : (slice 4096 scenarioFragments.flatten).2 ≠ [] := by
    intro hnil
    rw [hnil] at hleft
    simp at hleft
  rw [show scenarioRun
      = playRun 4096 (scenarioFragments.map PlayEvent.frag ++ [PlayEvent.timeout]) from rfl]
  unfold playRun
  rw [List.foldl_append, hfr]
  simp only [List.nil_append]
  have hsingle : ∀ s : PlayState,
      [PlayEvent.timeout].foldl (playStep 4096) s = playStep 4096 s PlayEvent.timeout :=
    fun _ => rfl
  rw [hsingle]
  rw [playStep_timeout_flush 4096 (slice 4096 scenarioFragments.flatten).2
    (slice 4096 scenarioFragments.flatten).1 hne]
  show ((slice 4096 scenarioFragments.flatten).1
      ++ [(slice 4096 scenarioFragments.flatten).2]).map List.length = [4096, 917]
  rw [hf]
  rw [List.map_append, List.map_cons, List.map_nil, List.map_cons, List.map_nil, hflen, hleft]
  rfl

/-- **C5** counterexample: the run performs only ONE full 4096-byte write
(5013 total bytes admit no second full frame), so the claimed "exactly two
full 4096-byte writes" is false; the actual writes are 4096 and 917
bytes. -/
theorem scenario_two_full_writes_false :
    scenarioRun.writes.map List.length = [4096, 917] ∧
    (scenarioRun.writes.map List.length).count 4096 ≠ 2 := by
  refine ⟨scenario_write_lengths, ?_⟩
  rw [scenario_write_lengths]
  decide

/-- **C5** (amended): enqueuing fragments of 10, 5000 and 3 bytes with
frame size 4096 yields exactly one full 4096-byte write and one final
short write of `(10+5000+3) - 4096 = 917` bytes after an idle period. -/
theorem scenario_one_full_one_short :
    scenarioRun.writes.map List.length
      = [Config.CHUNK, (10 + 5000 + 3) - Config.CHUNK] := by
  rw [scenario_write_lengths]
  decide

/-- One playback iteration keeps the buffer below one frame. -/
theorem playStep_buffer_lt (chunk : Nat) (hc : chunk ≠ 0) (s : PlayState)
    (hs : s.buffer.length < chunk) (e : PlayEvent) :
    (playStep chunk s e).buffer.length < chunk := by
  cases e with
  | frag d => exact slice_leftover_lt chunk hc _
  | timeout =>
      simp only [playStep]
      split
      · exact hs
      · simpa using Nat.pos_of_ne_zero hc

/-- The playback loop keeps the buffer below one frame from any state that
satisfies the bound. -/
theorem playFold_buffer_lt (chunk : Nat) (hc : chunk ≠ 0) (events : List PlayEvent) :
    ∀ s : PlayState, s.buffer.length < chunk →
      (events.foldl (playStep chunk) s).buffer.length < chunk := by
  induction events with
  | nil => intro s hs; exact hs
  | cons e es ih =>
      intro s hs
      exact ih _ (playStep_buffer_lt chunk hc s hs e)

/-- A timeout iteration always leaves the buffer empty. -/
theorem playStep_timeout_buffer (chunk : Nat) (s : PlayState) :
    (playStep chunk s PlayEvent.timeout).buffer = [] := by
  simp only [playStep]
  split <;> simp_all

/-- **C6**: at every observation point between loop iterations the
playback buffer holds fewer than `chunk` bytes, and immediately after an
idle flush it is empty. -/
theorem playback_buffer_invariant (chunk : Nat) (hc : chunk ≠ 0) (events : List PlayEvent) :
    (playRun chunk events).buffer.length < chunk ∧
    (playRun chunk (events ++ [PlayEvent.timeout])).buffer = [] := by
  constructor
  · exact playFold_buffer_lt chunk hc events _ (by simpa using Nat.pos_of_ne_zero hc)
  · unfold playRun
    rw [List.foldl_append]
    have hsingle : ∀ s : PlayState,
        [PlayEvent.timeout].foldl (playStep chunk) s = playStep chunk s PlayEvent.timeout :=
      fun _ => rfl
    rw [hsingle]
    exact playStep_timeout_buffer chunk _

/-- Witness for C6 at a concrete input. -/
theorem playback_buffer_invariant_witness :
    (playRun 2 [PlayEvent.frag [7]]).buffer.length < 2 :=
  (playback_buffer_invariant 2 (by decide) [PlayEvent.frag [7]]).1

/-- **C7**: on a dequeue timeout, a non-empty buffer is written to the
sink whole, as one write, and cleared; an empty buffer makes the idle
flush a no-op (the whole state, writes included, is unchanged). -/
theorem idle_flush_spec (chunk : Nat) (events : List PlayEvent) :
    ((playRun chunk events).buffer = [] →
      playRun chunk (events ++ [PlayEvent.timeout]) = playRun chunk events) ∧
    ((playRun chunk events).buffer ≠ [] →
      (playRun chunk (events ++ [PlayEvent.timeout])).writes
          = (playRun chunk events).writes ++ [(playRun chunk events).buffer] ∧
      (playRun chunk (events ++ [PlayEvent.timeout])).buffer = []) := by
  have hfold : playRun chunk (events ++ [PlayEvent.timeout])
      = playStep chunk (playRun chunk events) PlayEvent.timeout := by
    unfold playRun
    rw [List.foldl_append]
    rfl
  constructor
  · intro h
    rw [hfold]
    simp [playStep, h]
  · intro h
    rw [hfold]
    refine ⟨?_, ?_⟩ <;> simp [playStep, h]

/-- Witness for C7 at a concrete input (non-empty buffer flushed). -/
theorem idle_flush_spec_witness :
    (playRun 2 ([PlayEvent.frag [5]] ++ [PlayEvent.timeout])).writes
        = (playRun 2 [PlayEvent.frag [5]]).writes ++ [(playRun 2 [PlayEvent.frag [5]]).buffer] ∧
    (playRun 2 ([PlayEvent.frag [5]] ++ [PlayEvent.timeout])).buffer = [] :=
  (idle_flush_spec 2 [PlayEvent.frag [5]]).2 (by decide)

/-! ## Properties of the receive loop and teardown -/

/-- **C2**: whenever the receive loop exits — via the exit flag set by
`close()`, via the connection ending, or via an exception — the `finally`
block runs exactly once: one `Speaker.stop` call and one `save_to_wav`
export of the accumulated recording, on every path. -/
theorem finalization_exactly_once (exitFlag : Nat → Bool) (msgs : List Inbound) :
    (receiverSession exitFlag msgs).stopCalls = 1 ∧
    (receiverSession exitFlag msgs).exportCalls = 1 ∧
    (receiverSession exitFlag msgs).exportedBytes
      = save_to_wav (receiverSession exitFlag msgs).log := by
  unfold receiverSession
  split <;> simp [finalizeSession]

/-- **C10**: an inbound message that is neither a text string nor a binary
fragment (`None`, or any other non-str non-bytes object) is skipped
entirely: the receive loop continues with the remaining messages in the
same state — nothing is forwarded to the speaker, nothing is appended to
the recording log, and the loop does not exit. -/
theorem skip_non_text_non_binary (exitFlag : Nat → Bool) (ms : List Inbound)
    (i : Nat) (s : RecvState) (h : exitFlag i = false) :
    recvLoop exitFlag (Inbound.null :: ms) i s = recvLoop exitFlag ms (i + 1) s ∧
    recvLoop exitFlag (Inbound.other :: ms) i s = recvLoop exitFlag ms (i + 1) s := by
  constructor
  · conv_lhs => rw [recvLoop]
    simp [h]
  · conv_lhs => rw [recvLoop]
    simp [h]

/-- Witness for C10 at a concrete input. -/
theorem skip_non_text_non_binary_witness :
    recvLoop (fun _ => false) [Inbound.null] 0 { played := [], log := [] }
      = recvLoop (fun _ => false) [] 1 { played := [], log := [] } :=
  (skip_non_text_non_binary (fun _ => false) [] 0 { played := [], log := [] } rfl).1

/-- **C8**: `stop()` on a never-started engine (`self._stream = None`,
`self._thread = None`) performs no sink operation and no join, and leaves
the queue empty; on a started engine it sets the exit flag, stops and
closes the sink, joins the playback thread, and resets the queue,
discarding any unplayed fragments. -/
theorem stop_safe_without_start (q : List (List Nat)) :
    (Speaker.stopRun ⟨false, false, false, q⟩).2
        = [StopAction.setExitFlag, StopAction.resetQueue] ∧
    (Speaker.stopRun ⟨false, false, false, q⟩).1.queue = [] ∧
    (Speaker.stopRun ⟨false, true, true, q⟩).2
      = [StopAction.setExitFlag, StopAction.stopSink, StopAction.closeSink,
         StopAction.joinThread, StopAction.resetQueue] ∧
    (Speaker.stopRun ⟨false, true, true, q⟩).1 = ⟨true, false, false, []⟩ := by
  refine ⟨?_, ?_, ?_, ?_⟩ <;> simp [Speaker.stopRun]

/-- **C9**: when serialization succeeds, `speak(text)` sends exactly the
JSON control message `{"type": "Speak", "text": <text>}` (CPython's
default `json.dumps` rendering) and `flush()` sends exactly
`{"type": "Flush"}`; when serialization of the control message fails, the
`speak` call propagates the error synchronously and sends nothing, rather
than silently dropping the command. -/
theorem speak_flush_contract (sent : List String) (t : String) (v : PyVal)
    (e : String) (he : dumpsSpeak v = Except.error e) :
    TTSClient.speak sent (PyVal.str t)
        = Except.ok (sent
            ++ ["\x7b\"type\": \"Speak\", \"text\": " ++ pyJsonStr t ++ "\x7d"]) ∧
    TTSClient.flush sent = Except.ok (sent ++ ["\x7b\"type\": \"Flush\"\x7d"]) ∧
    TTSClient.speak sent v = Except.error e := by
  refine ⟨?_, rfl, ?_⟩
  · simp [TTSClient.speak, dumpsSpeak, dumpsVal]
  · simp [TTSClient.speak, he]

/-- Witness for C9 at concrete inputs: a plain string serializes to the
exact wire frame; a non-serializable object makes `speak` raise CPython's
`TypeError` message with nothing sent. -/
theorem speak_flush_contract_witness :
    TTSClient.speak [] (PyVal.str "Hello")
        = Except.ok ["\x7b\"type\": \"Speak\", \"text\": \"Hello\"\x7d"] ∧
    TTSClient.speak [] (PyVal.obj "object")
        = Except.error "Object of type object is not JSON serializable" := by
  obtain ⟨h1, h2, h3⟩ := speak_flush_contract [] "Hello" (PyVal.obj "object")
    "Object of type object is not JSON serializable" rfl
  refine ⟨?_, h3⟩
  rw [h1]
  rfl

/-! ## Interleavings of the playback loop with `stop()` -/

/-- A playback-loop step never changes the `stop()` program counter. -/
theorem loopStep_stopPC (chunk : Nat) (s : Sys) :
    (loopStep chunk s).stopPC = s.stopPC := by
  unfold loopStep
  by_cases h0 : s.loopPC = 0
  · rw [if_pos h0]
    split <;> rfl
  · rw [if_neg h0]
    by_cases h1 : s.loopPC = 1
    · rw [if_pos h1]
      cases hq : s.queue with
      | nil =>
          by_cases hb : s.buffer = [] <;> simp [hb]
      | cons d rest => rfl
    · rw [if_neg h1]

/-- Once the playback loop has exited it stays exited. -/
theorem loopStep_at_exit (chunk : Nat) (s : Sys) (h : s.loopPC = 2) :
    loopStep chunk s = s := by
  unfold loopStep
  rw [if_neg (by omega), if_neg (by omega)]

/-- One interleaved step preserves the join discipline: `stop()` can be
past its join (stopPC ≥ 4) only when the loop thread has exited. -/
theorem sysStep_join_inv (chunk : Nat) (who : Bool) (s : Sys)
    (h : 4 ≤ s.stopPC → s.loopPC = 2) :
    4 ≤ (sysStep chunk s who).stopPC → (sysStep chunk s who).loopPC = 2 := by
  cases who with
  | true =>
      show 4 ≤ (loopStep chunk s).stopPC → (loopStep chunk s).loopPC = 2
      intro h4
      rw [loopStep_stopPC] at h4
      have hl2 := h h4
      rw [loopStep_at_exit chunk s hl2]
      exact hl2
  | false =>
      show 4 ≤ (stopStep s).stopPC → (stopStep s).loopPC = 2
      unfold stopStep
      by_cases h0 : s.stopPC = 0
      · rw [if_pos h0]
        intro hx
        simp at hx
      · rw [if_neg h0]
        by_cases h1 : s.stopPC = 1
        · rw [if_pos h1]
          intro hx
          simp at hx
        · rw [if_neg h1]
          by_cases h2 : s.stopPC = 2
          · rw [if_pos h2]
            intro hx
            simp at hx
          · rw [if_neg h2]
            by_cases h3 : s.stopPC = 3
            · rw [if_pos h3]
              by_cases hl : s.loopPC = 2
              · rw [if_pos hl]
                intro _
                simpa using hl
              · rw [if_neg hl]
                exact h
            · rw [if_neg h3]
              by_cases h4 : s.stopPC = 4
              · rw [if_pos h4]
                intro _
                simpa using h (by omega)
              · rw [if_neg h4]
                exact h

/-- The join discipline holds along every schedule from a state that
satisfies it. -/
theorem sysRun_join_inv (chunk : Nat) (sched : List Bool) :
    ∀ s : Sys, (4 ≤ s.stopPC → s.loopPC = 2) →
      4 ≤ (sysRun chunk sched s).stopPC → (sysRun chunk sched s).loopPC = 2 := by
  induction sched with
  | nil => intro s h; exact h
  | cons a sc ih =>
      intro s h
      show 4 ≤ (sysRun chunk sc (sysStep chunk s a)).stopPC →
          (sysRun chunk sc (sysStep chunk s a)).loopPC = 2
      exact ih _ (sysStep_join_inv chunk a s h)

/-- **C4** counterexample: a complete interleaving in which `stop()` runs
to completion (`stopPC = 5`) yet the playback loop attempted a sink write
after the sink was closed (`badTouch = true`): the loop passes its
exit-flag test, `stop()` then sets the flag, stops and closes the sink,
and only afterwards does the loop dequeue the pending fragment and write
it — to the already-closed sink.  Moreover in `stop()`'s own statement
order the sink is closed strictly before the thread join, and in
`close()`'s the socket is closed strictly before the receiver join.  This
refutes both halves of the claimed disjunct: the loop thread is not joined
before the sink/connection is closed, and the loop can touch the resource
after it is closed. -/
theorem resource_released_while_loop_running :
    (sysRun 4 [true, false, false, false, true, true, false, false]
        (sysInit [[0, 0, 0, 0]])).badTouch = true ∧
    (sysRun 4 [true, false, false, false, true, true, false, false]
        (sysInit [[0, 0, 0, 0]])).stopPC = 5 ∧
    (Speaker.stopRun ⟨false, true, true, []⟩).2.indexOf StopAction.closeSink
      < (Speaker.stopRun ⟨false, true, true, []⟩).2.indexOf StopAction.joinThread ∧
    TTSClient.closeRun.indexOf CloseAction.closeSocket
      < TTSClient.closeRun.indexOf CloseAction.joinReceiver := by
  refine ⟨?_, ?_, ?_, ?_⟩ <;> decide

/-- **C4** (amended): `stop()` and `close()` do block the calling thread
until the background loop thread has exited — in every interleaving,
`stop()` can be past its join only once the playback loop has exited, and
the join is the step (resp. the last step before return) of both teardown
sequences — but each closes its resource *before* the join, so the loop
may attempt to touch the closed resource (the playback write error is
swallowed; for the receiver, closing the socket is what unblocks the
pending `recv`). -/
theorem stop_close_join_semantics (chunk : Nat) (sched : List Bool) (q : List (List Nat)) :
    (4 ≤ (sysRun chunk sched (sysInit q)).stopPC →
        (sysRun chunk sched (sysInit q)).loopPC = 2) ∧
    (Speaker.stopRun ⟨false, true, true, q⟩).2.indexOf StopAction.closeSink
      < (Speaker.stopRun ⟨false, true, true, q⟩).2.indexOf StopAction.joinThread ∧
    TTSClient.closeRun.indexOf CloseAction.closeSocket
      < TTSClient.closeRun.indexOf CloseAction.joinReceiver ∧
    TTSClient.closeRun.getLast? = some CloseAction.joinReceiver := by
  refine ⟨?_, ?_, ?_, ?_⟩
  · exact sysRun_join_inv chunk sched (sysInit q) (by intro hx; simp [sysInit] at hx)
  · simp [Speaker.stopRun]
  · decide
  · decide

/-- Witness for the amended C4 at a concrete schedule on which `stop()`
completes. -/
theorem stop_close_join_semantics_witness :
    (sysRun 4 [true, false, false, false, true, true, false, false]
        (sysInit [[0, 0, 0, 0]])).loopPC = 2 :=
  (stop_close_join_semantics 4 [true, false, false, false, true, true, false, false]
    [[0, 0, 0, 0]]).1 (by decide)

end TTS
